import Mathlib

/-!
Verification of the rpc-agent repository's RPC dispatch core.

The repository ships two superseded variants of `src/services/rpc.service.ts`
in one file.  The claims reference the second (extension-based) variant for
dispatch, framing and error handling, and the first (plugin-based) variant for
bulk plugin registration.  Both are embedded below where a claim needs them.

Modelling conventions:
- JSON values are a deep inductive; JavaScript numbers are modelled as `Int`
  (every port / id / code in the claims is integral).
- Impure decorations of errors (ISO timestamp, random `errorId`) and logging
  are elided; the structured fields `code`, `message`, `details`, `requestId`
  are kept.
- `JSON.parse` is a platform primitive, so the stream listener is
  parameterised by a `decode` function returning `Except` (the error message
  is the platform parse-error text).
- Handler execution under `Promise.race` is modelled by giving each method a
  settle time (`none` = the promise never settles); the race is won by the
  handler exactly when it settles strictly before the 5000 ms timer fires.
  The handler body is invoked eagerly when the race is built, as in the
  source, so a timed-out call still runs the handler and discards its result.
-/

namespace RpcAgent

/-- JSON value model for request params, results and error details. -/
inductive JSON where
  | null
  | bool (b : Bool)
  | num (n : Int)
  | str (s : String)
  | arr (elems : List JSON)
  | obj (fields : List (String × JSON))

/-- JavaScript `typeof` on a JSON value (`typeof null` is "object"). -/
def jsTypeof : JSON → String
  | JSON.null => "object"
  | JSON.bool _ => "boolean"
  | JSON.num _ => "number"
  | JSON.str _ => "string"
  | JSON.arr _ => "object"
  | JSON.obj _ => "object"

/-- Property access `v[k]`; `none` is JavaScript `undefined`.
Array indices are addressed by their decimal string, as in JavaScript. -/
def jsGetProp : JSON → String → Option JSON
  | JSON.obj fields, k => List.lookup k fields
  | JSON.arr elems, k =>
    (List.range elems.length).findSome?
      (fun i => if toString i = k then elems.get? i else none)
  | _, _ => none

/-- Enumerable own keys, `Object.keys`. -/
def jsKeys : JSON → List String
  | JSON.obj fields => fields.map Prod.fst
  | JSON.arr elems => (List.range elems.length).map toString
  | _ => []

/-- True for `null` and for values whose `typeof` is not "object":
the test `params === null || typeof params !== "object"`. -/
def jsIsNullOrNonObject : JSON → Bool
  | JSON.null => true
  | JSON.obj _ => false
  | JSON.arr _ => false
  | _ => true

mutual

/-- String coercion used by template literals (arrays join on commas,
plain objects print as `[object Object]`). -/
def jsDisplayVal : JSON → String
  | JSON.null => "null"
  | JSON.bool b => if b then "true" else "false"
  | JSON.num n => toString n
  | JSON.str s => s
  | JSON.arr elems => jsDisplayItems elems
  | JSON.obj _ => "[object Object]"

/-- Comma-joined rendering of array elements. -/
def jsDisplayItems : List JSON → String
  | [] => ""
  | [x] => jsDisplayVal x
  | x :: y :: rest => jsDisplayVal x ++ "," ++ jsDisplayItems (y :: rest)

end

/-- Template-literal rendering of a possibly-undefined value. -/
def jsDisplay : Option JSON → String
  | none => "undefined"
  | some v => jsDisplayVal v

/-- Assignment `m[k] = v` on a string-keyed object or `Map.set`:
replaces in place if the key exists, otherwise appends. -/
def jsObjSet {α : Type} : List (String × α) → String → α → List (String × α)
  | [], k, v => [(k, v)]
  | (k2, v2) :: rest, k, v =>
    if k2 = k then (k2, v) :: rest else (k2, v2) :: jsObjSet rest k v

/- Error codes from `interfaces/error.interface.ts` (the subset the
dispatch core and listeners construct). -/
namespace ErrorCode

def PARSE_ERROR : Int := -32700
def INVALID_REQUEST : Int := -32600
def METHOD_NOT_FOUND : Int := -32601
def INVALID_PARAMS : Int := -32602
def INTERNAL_ERROR : Int := -32603
def SERVER_ERROR : Int := -32000
def EXTENSION_NOT_FOUND : Int := -32001
def SERVICE_UNAVAILABLE : Int := -32004
def TIMEOUT : Int := 408

end ErrorCode

/-- Structured RPC error value (`RpcError` in `services/error.service.ts`),
keeping the fields the claims speak about; the impure `timestamp` and
`errorId` decorations are elided. -/
structure RpcError where
  code : Int
  message : String
  details : List (String × JSON)
  requestId : Option JSON

/- Factory methods of `ErrorService`; `createError` merges an optional
`field` name into the details exactly when it is a truthy string. -/
namespace ErrorService

def createError (code : Int) (message : String) (field : Option String)
    (details : List (String × JSON)) : RpcError :=
  RpcError.mk code message
    (match field with
     | some f => if f = "" then details else jsObjSet details "field" (JSON.str f)
     | none => details)
    none

def parseError (message : String) (details : List (String × JSON)) : RpcError :=
  createError ErrorCode.PARSE_ERROR message none details

def invalidRequest (message : String) (details : List (String × JSON)) : RpcError :=
  createError ErrorCode.INVALID_REQUEST message none details

def methodNotFound (message : String) (details : List (String × JSON)) : RpcError :=
  createError ErrorCode.METHOD_NOT_FOUND message none details

def invalidParams (message : String) (field : Option String)
    (details : List (String × JSON)) : RpcError :=
  createError ErrorCode.INVALID_PARAMS message field details

def internalError (message : String) (details : List (String × JSON)) : RpcError :=
  createError ErrorCode.INTERNAL_ERROR message none details

def requestTimeout (message : String) (details : List (String × JSON)) : RpcError :=
  createError ErrorCode.TIMEOUT message none details

def extensionNotFound (message : String) (details : List (String × JSON)) : RpcError :=
  createError ErrorCode.EXTENSION_NOT_FOUND message none details

def serviceUnavailable (message : String) (details : List (String × JSON)) : RpcError :=
  createError ErrorCode.SERVICE_UNAVAILABLE message none details

end ErrorService

/-- Outcome of running a handler body: resolve, throw an `RpcError`,
or throw a plain JavaScript `Error` carrying only a message. -/
inductive HandlerOutcome where
  | ok (v : JSON)
  | rpcThrow (e : RpcError)
  | jsThrow (msg : String)

/-- One extension method: its body plus the time (ms) at which the returned
promise settles for given params; `none` means it never settles. -/
structure ExtMethod where
  run : JSON → HandlerOutcome
  settleMs : JSON → Option Nat

/-- Extension record (namespace of methods) as held by the registry. -/
structure Extension where
  name : String
  methods : List (String × ExtMethod)

/-- Request envelope (`RpcRequest`); `params` may be absent, `id` is a JSON
value (null, string or number on the wire). -/
structure RpcRequest where
  jsonrpc : String
  method : String
  params : Option JSON
  id : JSON

/-- Response envelope (`RpcResponse`): at most one of `result` / `error`. -/
structure RpcResponse where
  jsonrpc : String
  id : JSON
  result : Option JSON
  error : Option RpcError

/-- The service's `createErrorResponse`: wraps a freshly built `RpcError`
(carrying the request id) in an error envelope. -/
def createErrorResponse (id : JSON) (code : Int) (message : String)
    (details : List (String × JSON)) : RpcResponse :=
  RpcResponse.mk "2.0" id none (some (RpcError.mk code message details (some id)))

/-- JavaScript `String.prototype.split` with a one-character separator,
on the character list. -/
def splitOnChar (c : Char) : List Char → List (List Char)
  | [] => [[]]
  | x :: xs =>
    if x = c then [] :: splitOnChar c xs
    else
      match splitOnChar c xs with
      | [] => [[x]]
      | r :: rs => (x :: r) :: rs

/-- The dispatch core's `method.split(".")`. -/
def jsSplitDot (s : String) : List String :=
  (splitOnChar '.' s.data).map String.mk

/-- Destructuring `const [extensionName, methodName] = method.split(".")`;
a missing second segment (JavaScript `undefined`) and an empty segment are
merged, both being falsy in the subsequent format check. -/
def methodSegments (method : String) : String × String :=
  let parts := jsSplitDot method
  (parts.getD 0 "", parts.getD 1 "")

/-- Fixed execution deadline of the dispatch core (ms). -/
def TIMEOUT_MS : Nat := 5000

/-- The `Promise.race` of the handler invocation against the timeout timer:
the handler wins exactly when its promise settles strictly before the timer
fires; otherwise the race rejects with the prepared timeout error.  The
handler body has been invoked either way. -/
def raceHandler (m : ExtMethod) (params : JSON) (timeoutErr : RpcError) :
    HandlerOutcome :=
  match m.settleMs params with
  | some t => if t < TIMEOUT_MS then m.run params else HandlerOutcome.rpcThrow timeoutErr
  | none => HandlerOutcome.rpcThrow timeoutErr

/-- The extension-based `handleRequest` (second variant, the dispatch core
the claims cite): parse the method name, look up extension then method, race
the handler against the 5000 ms deadline, and wrap the outcome.  Note that
this variant never inspects the `jsonrpc` field, and its schema validation
block is commented out in the source.  The returned flag records whether the
resolved handler body was invoked. -/
def handleRequest (exts : List (String × Extension)) (req : RpcRequest) :
    RpcResponse × Bool :=
  let params := req.params.getD (JSON.obj [])
  let seg := methodSegments req.method
  if seg.1 = "" ∨ seg.2 = "" then
    (RpcResponse.mk "2.0" req.id none
      (some (ErrorService.invalidRequest
        "Invalid method format. Expected extension.method" [])), false)
  else
    match List.lookup seg.1 exts with
    | none =>
      (RpcResponse.mk "2.0" req.id none
        (some (ErrorService.extensionNotFound
          ("Extension " ++ seg.1 ++ " not found") [])), false)
    | some ext =>
      match List.lookup seg.2 ext.methods with
      | none =>
        (RpcResponse.mk "2.0" req.id none
          (some (ErrorService.methodNotFound
            ("Method " ++ seg.2 ++ " not found in extension " ++ seg.1) [])), false)
      | some m =>
        let timeoutErr := ErrorService.requestTimeout "Request timeout"
          [("requestId", req.id), ("method", JSON.str req.method),
           ("timeoutMs", JSON.num (TIMEOUT_MS : Int))]
        match raceHandler m params timeoutErr with
        | HandlerOutcome.ok v =>
          (RpcResponse.mk "2.0" req.id (some v) none, true)
        | HandlerOutcome.rpcThrow e =>
          (RpcResponse.mk "2.0" req.id none (some e), true)
        | HandlerOutcome.jsThrow msg =>
          (RpcResponse.mk "2.0" req.id none
            (some (ErrorService.internalError msg
              [("requestId", req.id), ("method", JSON.str req.method)])), true)

/-- JavaScript `typeof` on a possibly-undefined value. -/
def jsDisplayType : Option JSON → String
  | none => "undefined"
  | some v => jsTypeof v

/-- The `echo.echo` handler body (`rpcs/echo/index.ts`), parameterised by the
extension's `config.enabled` flag (constructed as `true`) and by the clock's
ISO rendering used for the `timestamp` field.  Params must be a non-null
object, carry no key other than `message`, and have a string `message`;
each violation throws an `invalidParams` error. -/
def echoRun (enabled : Bool) (nowIso : String) (params : JSON) : HandlerOutcome :=
  if enabled = false then
    HandlerOutcome.rpcThrow (ErrorService.serviceUnavailable "Extension is disabled"
      [("extension", JSON.str "echo"), ("status", JSON.str "active"),
       ("source", JSON.str "echo-extension")])
  else if jsIsNullOrNonObject params then
    HandlerOutcome.rpcThrow (ErrorService.invalidParams "Invalid params: must be an object"
      none [("receivedType", JSON.str (jsTypeof params)), ("source", JSON.str "echo-extension")])
  else
    let unknownParams := (jsKeys params).filter (fun k => k ≠ "message")
    if 0 < unknownParams.length then
      HandlerOutcome.rpcThrow (ErrorService.invalidParams
        ("Invalid params: unknown parameters " ++ String.intercalate ", " unknownParams)
        none
        [("unknownParams", JSON.arr (unknownParams.map JSON.str)),
         ("allowedParams", JSON.arr [JSON.str "message"]),
         ("source", JSON.str "echo-extension")])
    else
      match jsGetProp params "message" with
      | some (JSON.str message) =>
        HandlerOutcome.ok (JSON.obj
          [("message", JSON.str ("📣: " ++ (if message = "" then "" else message))),
           ("timestamp", JSON.str nowIso)])
      | mv =>
        HandlerOutcome.rpcThrow (ErrorService.invalidParams
          "Invalid params: message must be a string" none
          [("receivedType", JSON.str (jsDisplayType mv)),
           ("source", JSON.str "echo-extension")])

/-- The `echo.ping` handler body. -/
def pingRun (enabled : Bool) (nowIso : String) (_params : JSON) : HandlerOutcome :=
  if enabled = false then
    HandlerOutcome.rpcThrow (ErrorService.serviceUnavailable "Extension is disabled"
      [("extension", JSON.str "echo"), ("status", JSON.str "active"),
       ("source", JSON.str "echo-extension")])
  else
    HandlerOutcome.ok (JSON.obj [("pong", JSON.bool true), ("timestamp", JSON.str nowIso)])

/-- The echo extension as loaded into the registry; its handlers settle
immediately (time 0). -/
def echoExtension (nowIso : String) : Extension :=
  Extension.mk "echo"
    [("echo", ExtMethod.mk (echoRun true nowIso) (fun _ => some 0)),
     ("ping", ExtMethod.mk (pingRun true nowIso) (fun _ => some 0))]

/-- The `network.validatePort` handler body (`rpcs/network/index.ts`):
destructures `port` and `type`, throws a plain `Error` when the port is not
an integer or out of range, otherwise resolves `{valid, port, type}`.
JavaScript numbers are modelled as integers, so `Number.isInteger` holds of
every `JSON.num`; an absent `type` in the response is rendered as null. -/
def validatePort (params : JSON) : HandlerOutcome :=
  let port := jsGetProp params "port"
  let ty := jsGetProp params "type"
  match port with
  | some (JSON.num n) =>
    if n < 1 ∨ 65535 < n then
      HandlerOutcome.jsThrow ("Invalid " ++ jsDisplay ty ++ " port: " ++ jsDisplay port ++
        ". Port must be between 1 and 65535.")
    else
      HandlerOutcome.ok (JSON.obj
        [("valid", JSON.bool true), ("port", JSON.num n),
         ("type", (ty.getD JSON.null))])
  | _ =>
    HandlerOutcome.jsThrow ("Invalid " ++ jsDisplay ty ++ " port: " ++ jsDisplay port ++
      ". Port must be an integer.")

/-- The network extension; `validatePort` settles immediately. -/
def networkExtension : Extension :=
  Extension.mk "network" [("validatePort", ExtMethod.mk validatePort (fun _ => some 0))]

/-- Per-connection state of the stream listener: the receive buffer. -/
structure TcpConnState where
  buffer : List Char

/-- Fresh connection state, `Buffer.alloc(0)`. -/
def initialConnState : TcpConnState := TcpConnState.mk []

/-- The listener's 1 MiB per-connection buffer limit. -/
def maxBufferSize : Nat := 1024 * 1024

/-- The frame-scanning `while ((newlineIndex = buffer.indexOf("\n")) !== -1)`
loop's effect on the buffer: the complete newline-terminated frames in order,
and the remaining bytes after the last newline. -/
def extractFrames : List Char → List (List Char) × List Char
  | [] => ([], [])
  | c :: rest =>
    let (fs, rem) := extractFrames rest
    if c = '\n' then ([] :: fs, rem)
    else
      match fs with
      | [] => ([], c :: rem)
      | f :: fs2 => ((c :: f) :: fs2, rem)

/-- Body of the frame loop: decode each frame (`decode` models the platform
`JSON.parse` applied to a request envelope; its error is the parse-error
message), dispatch it, and on parse failure answer with a `PARSE_ERROR`
envelope whose id is the `requestId` variable — null at the start of the
data event, updated to the request id after every successful parse.  The
loop continues with the remaining frames either way. -/
def dispatchFrames (decode : String → Except String RpcRequest)
    (exts : List (String × Extension)) :
    Option JSON → List (List Char) → List RpcResponse
  | _, [] => []
  | requestId, f :: fs =>
    match decode (String.mk f) with
    | Except.ok req =>
      (handleRequest exts req).1 :: dispatchFrames decode exts (some req.id) fs
    | Except.error msg =>
      createErrorResponse (requestId.getD JSON.null) ErrorCode.PARSE_ERROR msg
          [("data", JSON.str (String.mk (f.take 100)))]
        :: dispatchFrames decode exts requestId fs

/-- One `data` event of the stream listener (`initializeTCPServer`): append
the chunk to the buffer; if the buffer now exceeds 1 MiB, answer a single
`SERVER_ERROR` envelope with id null and reset the buffer before any frame
scanning; otherwise process every complete frame and keep the remainder
buffered.  The connection is never closed by this handler. -/
def onTcpData (decode : String → Except String RpcRequest)
    (exts : List (String × Extension)) (st : TcpConnState) (data : List Char) :
    List RpcResponse × TcpConnState :=
  let buffer := st.buffer ++ data
  if maxBufferSize < buffer.length then
    ([createErrorResponse JSON.null ErrorCode.SERVER_ERROR "Buffer size limit exceeded"
        [("size", JSON.num (buffer.length : Int)),
         ("maxSize", JSON.num (maxBufferSize : Int))]],
     TcpConnState.mk [])
  else
    let (frames, rem) := extractFrames buffer
    (dispatchFrames decode exts none frames, TcpConnState.mk rem)

/-- The extensions manager's RPC `register` method
(`rpcs/extensions/index.ts`): throws a conflict error when the name is
already present — leaving the mapping untouched — and otherwise adds the
extension to the map. -/
def managerRegister (extensions : List (String × Extension)) (ext : Extension) :
    Except String Unit × List (String × Extension) :=
  if (List.lookup ext.name extensions).isSome then
    (Except.error ("Extension " ++ ext.name ++ " already registered"), extensions)
  else
    (Except.ok (), jsObjSet extensions ext.name ext)

/-- Plugin record of the first (plugin-based) service variant; only the
fields `registerPlugin` reads are kept. -/
structure V1Plugin where
  name : String
  version : String

/-- The first variant's `registerPlugin`: warns when the name is already
registered (the returned flag) and overwrites unconditionally. -/
def registerPlugin (plugins : List (String × V1Plugin)) (p : V1Plugin) :
    List (String × V1Plugin) × Bool :=
  (jsObjSet plugins p.name p, (List.lookup p.name plugins).isSome)

/-- The first variant's `loadPlugins` bulk load, starting from the given
registry: register each discovered plugin in order, collecting the names
that triggered the already-registered warning. -/
def loadPlugins : List (String × V1Plugin) → List V1Plugin →
    List (String × V1Plugin) × List String
  | acc, [] => (acc, [])
  | acc, p :: ps =>
    let step := registerPlugin acc p
    let rest := loadPlugins step.1 ps
    (rest.1, (if step.2 then [p.name] else []) ++ rest.2)

/-- Test extension whose single method's promise never settles, exercising
the timeout race. -/
def slowExtension : Extension :=
  Extension.mk "slow"
    [("never", ExtMethod.mk (fun _ => HandlerOutcome.ok JSON.null) (fun _ => none))]

/-- Concrete instance of the platform decode: parses the one well-formed
envelope below and fails on everything else with the platform's
unexpected-token message. -/
def decodeFixture : String → Except String RpcRequest := fun s =>
  if s = "\x7b\"jsonrpc\":\"2.0\",\"method\":\"echo.ping\",\"id\":7\x7d" then
    Except.ok (RpcRequest.mk "2.0" "echo.ping" none (JSON.num 7))
  else
    Except.error "Unexpected token"

/-- A stream chunk carrying one well-formed frame (id 7) followed by one
frame that is not valid JSON. -/
def mixedFramesChunk : List Char :=
  ("\x7b\"jsonrpc\":\"2.0\",\"method\":\"echo.ping\",\"id\":7\x7d\n\x7bnot json\x7d\n").data

/-- C1.  Claimed: a request to a method with a declared input schema whose
params miss a required field — `network.validatePort` with params
`(type TCP)` and no `port` — is rejected by the dispatch with code -32602
naming the field, and the handler is not invoked.  The dispatch core's
schema-validation block is commented out in the source, so the handler IS
invoked, throws a plain `Error` for the undefined port, and the dispatch
wraps it as `INTERNAL_ERROR` -32603: the code contradicts both the claim
and its own doc comment. -/
theorem c1_missing_param_code_bug :
    handleRequest [("network", networkExtension)]
      (RpcRequest.mk "2.0" "network.validatePort"
        (some (JSON.obj [("type", JSON.str "TCP")])) (JSON.num 1)) =
    (RpcResponse.mk "2.0" (JSON.num 1) none
      (some (ErrorService.internalError
        "Invalid TCP port: undefined. Port must be an integer."
        [("requestId", JSON.num 1), ("method", JSON.str "network.validatePort")])), true) := rfl

/-- C2.  Claimed: a request whose `jsonrpc` field is not "2.0" is rejected
with `INVALID_REQUEST` -32600 before any handler is resolved.  The dispatch
core never reads the `jsonrpc` field: the request below carries version
"1.0", yet the handler is resolved, invoked (flag true) and its result
returned as a success envelope. -/
theorem c2_version_unchecked_code_bug :
    handleRequest [("echo", echoExtension "TS")]
      (RpcRequest.mk "1.0" "echo.ping" none (JSON.num 1)) =
    (RpcResponse.mk "2.0" (JSON.num 1)
      (some (JSON.obj [("pong", JSON.bool true), ("timestamp", JSON.str "TS")])) none, true) := rfl

/-- C4 counterexample.  Claimed: the method name looked up is the entire
remainder after the first dot.  For method "echo.ping.zzz" the remainder
"ping.zzz" names no method of the echo extension, so under the claim
resolution must fail; yet the dispatch succeeds (invoking "ping") because
`split(".")` discards every segment after the second. -/
theorem c4_resolution_counterexample :
    List.lookup "ping.zzz" (echoExtension "TS").methods = none
    ∧ handleRequest [("echo", echoExtension "TS")]
        (RpcRequest.mk "2.0" "echo.ping.zzz" none (JSON.num 3)) =
      (RpcResponse.mk "2.0" (JSON.num 3)
        (some (JSON.obj [("pong", JSON.bool true), ("timestamp", JSON.str "TS")])) none, true) :=
  ⟨rfl, rfl⟩

/-- C8.  The response envelope built by `handleRequest` always carries
exactly the request's id value, on the success path and on every error
path alike — no coercion is possible since the value is moved verbatim. -/
theorem c8_id_echo (exts : List (String × Extension)) (req : RpcRequest) :
    (handleRequest exts req).1.id = req.id := by
  simp only [handleRequest]
  repeat' split
  all_goals rfl

/-- C9.  Every envelope produced by the dispatch core carries exactly one of
`result` / `error`: each success path sets `result` and leaves `error`
empty, each failure path (including the listener-level
`createErrorResponse`) sets `error` and leaves `result` empty. -/
theorem c9_result_error_exclusive (exts : List (String × Extension)) (req : RpcRequest)
    (id : JSON) (code : Int) (message : String) (details : List (String × JSON)) :
    (((handleRequest exts req).1.result.isSome ∧ (handleRequest exts req).1.error = none)
      ∨ ((handleRequest exts req).1.result = none ∧ (handleRequest exts req).1.error.isSome))
    ∧ ((createErrorResponse id code message details).result = none
        ∧ (createErrorResponse id code message details).error.isSome) := by
  constructor
  · simp only [handleRequest]
    repeat' split
    all_goals simp
  · exact ⟨rfl, rfl⟩

/-- C3.  When the resolved handler's promise does not settle before the
5000 ms deadline (or never settles), the dispatch produces exactly the one
timeout error envelope — code `ErrorCode.TIMEOUT` = 408, outside the
JSON-RPC reserved range — with the handler invoked (flag true) and its
eventual result discarded: the race rejects with the timeout error for any
handler body sharing the same settle time, as the second conjunct states. -/
theorem c3_timeout_response (exts : List (String × Extension)) (req : RpcRequest)
    (ext : Extension) (m : ExtMethod)
    (h1 : (methodSegments req.method).1 ≠ "")
    (h2 : (methodSegments req.method).2 ≠ "")
    (h3 : List.lookup (methodSegments req.method).1 exts = some ext)
    (h4 : List.lookup (methodSegments req.method).2 ext.methods = some m)
    (h5 : ∀ t, m.settleMs (req.params.getD (JSON.obj [])) = some t → TIMEOUT_MS ≤ t) :
    handleRequest exts req =
      (RpcResponse.mk "2.0" req.id none
        (some (ErrorService.requestTimeout "Request timeout"
          [("requestId", req.id), ("method", JSON.str req.method),
           ("timeoutMs", JSON.num (TIMEOUT_MS : Int))])), true)
    ∧ (∀ run2 : JSON → HandlerOutcome, ∀ terr : RpcError,
        raceHandler (ExtMethod.mk run2 m.settleMs) (req.params.getD (JSON.obj [])) terr =
          HandlerOutcome.rpcThrow terr)
    ∧ ErrorCode.TIMEOUT = 408
    ∧ ¬(-32768 ≤ ErrorCode.TIMEOUT ∧ ErrorCode.TIMEOUT ≤ -32000) := by
  have hrace : ∀ run2 : JSON → HandlerOutcome, ∀ terr : RpcError,
      raceHandler (ExtMethod.mk run2 m.settleMs) (req.params.getD (JSON.obj [])) terr =
        HandlerOutcome.rpcThrow terr := by
    intro run2 terr
    unfold raceHandler
    cases hm : m.settleMs (req.params.getD (JSON.obj [])) with
    | none => rfl
    | some t =>
      have hle := h5 t hm
      simp [Nat.not_lt.mpr hle]
  refine ⟨?_, hrace, rfl, by decide⟩
  have hracem : raceHandler m (req.params.getD (JSON.obj []))
      (ErrorService.requestTimeout "Request timeout"
        [("requestId", req.id), ("method", JSON.str req.method),
         ("timeoutMs", JSON.num (TIMEOUT_MS : Int))]) =
      HandlerOutcome.rpcThrow (ErrorService.requestTimeout "Request timeout"
        [("requestId", req.id), ("method", JSON.str req.method),
         ("timeoutMs", JSON.num (TIMEOUT_MS : Int))]) :=
    hrace m.run _
  simp only [handleRequest, h3, h4]
  rw [if_neg (by simp [h1, h2])]
  simp [hracem]

/-- C3 witness: a registered method whose promise never settles yields the
timeout envelope at a concrete request. -/
theorem c3_timeout_response_witness :
    handleRequest [("slow", slowExtension)]
      (RpcRequest.mk "2.0" "slow.never" none (JSON.num 1)) =
      (RpcResponse.mk "2.0" (JSON.num 1) none
        (some (ErrorService.requestTimeout "Request timeout"
          [("requestId", JSON.num 1), ("method", JSON.str "slow.never"),
           ("timeoutMs", JSON.num (TIMEOUT_MS : Int))])), true)
    ∧ ErrorCode.TIMEOUT = 408
    ∧ ¬(-32768 ≤ ErrorCode.TIMEOUT ∧ ErrorCode.TIMEOUT ≤ -32000) := by
  have h := c3_timeout_response [("slow", slowExtension)]
    (RpcRequest.mk "2.0" "slow.never" none (JSON.num 1)) slowExtension
    (ExtMethod.mk (fun _ => HandlerOutcome.ok JSON.null) (fun _ => none))
    (by decide) (by decide) rfl rfl
    (fun t hm => Option.noConfusion hm)
  exact ⟨h.1, h.2.2.1, h.2.2.2⟩

/-- C5.  Registering an extension via the manager's explicit `register`
method when the name is already present fails with the conflict error and
leaves the mapping untouched; the startup bulk load of two same-named
plugins succeeds, keeps the later one, and records the overwrite warning. -/
theorem c5_duplicate_registration (exts : List (String × Extension)) (ext : Extension)
    (p1 p2 : V1Plugin)
    (hdup : (List.lookup ext.name exts).isSome = true)
    (hname : p1.name = p2.name) :
    managerRegister exts ext =
      (Except.error ("Extension " ++ ext.name ++ " already registered"), exts)
    ∧ List.lookup p2.name (loadPlugins [] [p1, p2]).1 = some p2
    ∧ (loadPlugins [] [p1, p2]).2 = [p2.name] := by
  refine ⟨?_, ?_, ?_⟩
  · simp [managerRegister, hdup]
  · simp [loadPlugins, registerPlugin, jsObjSet, hname]
  · simp [loadPlugins, registerPlugin, jsObjSet, hname]

/-- C5 witness: a concrete conflicting `register` call and a concrete
two-plugin bulk load with a duplicated name. -/
theorem c5_duplicate_registration_witness :
    managerRegister [("echo", echoExtension "T")] (echoExtension "T") =
      (Except.error "Extension echo already registered", [("echo", echoExtension "T")])
    ∧ List.lookup "dup" (loadPlugins [] [V1Plugin.mk "dup" "1", V1Plugin.mk "dup" "2"]).1 =
        some (V1Plugin.mk "dup" "2")
    ∧ (loadPlugins [] [V1Plugin.mk "dup" "1", V1Plugin.mk "dup" "2"]).2 = ["dup"] := by
  have h := c5_duplicate_registration [("echo", echoExtension "T")] (echoExtension "T")
    (V1Plugin.mk "dup" "1") (V1Plugin.mk "dup" "2") rfl rfl
  exact ⟨h.1, h.2.1, h.2.2⟩

/-- C6.  When a chunk pushes a connection's receive buffer beyond 1 MiB
with no newline delimiter in sight, the data handler answers exactly one
`SERVER_ERROR` (-32000) envelope with id null and resets the buffer to the
fresh-connection state instead of letting it grow; no close or destroy is
performed on this path, so the connection stays usable. -/
theorem c6_buffer_overflow (decode : String → Except String RpcRequest)
    (exts : List (String × Extension)) (st : TcpConnState) (data : List Char)
    (hlen : maxBufferSize < (st.buffer ++ data).length)
    (_hnl : ∀ c ∈ st.buffer ++ data, c ≠ '\n') :
    onTcpData decode exts st data =
      ([createErrorResponse JSON.null ErrorCode.SERVER_ERROR "Buffer size limit exceeded"
          [("size", JSON.num ((st.buffer ++ data).length : Int)),
           ("maxSize", JSON.num (maxBufferSize : Int))]],
       initialConnState) := by
  simp only [onTcpData, if_pos hlen]
  rfl

/-- C6 witness: a fresh connection fed a single 1 MiB + 1 chunk of
newline-free bytes. -/
theorem c6_buffer_overflow_witness :
    onTcpData (fun _ => Except.error "Unexpected token") [] initialConnState
        (List.replicate 1048577 'a') =
      ([createErrorResponse JSON.null ErrorCode.SERVER_ERROR "Buffer size limit exceeded"
          [("size", JSON.num (((initialConnState.buffer ++ List.replicate 1048577 'a').length : Nat) : Int)),
           ("maxSize", JSON.num (maxBufferSize : Int))]],
       initialConnState) := by
  exact c6_buffer_overflow (fun _ => Except.error "Unexpected token") [] initialConnState
    (List.replicate 1048577 'a')
    (by show maxBufferSize < (([] : List Char) ++ List.replicate 1048577 'a').length
        rw [List.nil_append, List.length_replicate, maxBufferSize]
        norm_num)
    (by show ∀ c ∈ ([] : List Char) ++ List.replicate 1048577 'a', c ≠ '\n'
        intro c hc
        rw [List.nil_append, List.mem_replicate] at hc
        rw [hc.2]
        decide)

/-- C7 counterexample.  Claimed: every newline-delimited frame that is not
valid JSON is answered with `error.code` -32700 AND `id` null.  In one data
event carrying a well-formed frame (id 7) followed by a malformed one, the
malformed frame's error response echoes the stale id 7 — not null — because
the `requestId` variable persists across frames within a data event. -/
theorem c7_parse_error_counterexample :
    ((onTcpData decodeFixture [("echo", echoExtension "TS")] initialConnState
        mixedFramesChunk).1).map (fun r => (r.id, r.error.map RpcError.code)) =
    [(JSON.num 7, none), (JSON.num 7, some (-32700))] := rfl

/-- C7 amended.  A frame that fails platform JSON parsing is answered with a
`PARSE_ERROR` (-32700) envelope and the loop continues with the remaining
frames; the envelope's id is the data event's `requestId` variable — null
when no earlier frame of the same event parsed successfully (in particular
for the event's first frame, second conjunct), otherwise the id of the most
recently parsed request. -/
theorem c7_parse_error_amended
    (decode : String → Except String RpcRequest) (exts : List (String × Extension))
    (requestId : Option JSON) (f : List Char) (fs : List (List Char)) (msg : String)
    (st : TcpConnState) (data : List Char) (rem : List Char)
    (hdec : decode (String.mk f) = Except.error msg)
    (hlen : (st.buffer ++ data).length ≤ maxBufferSize)
    (hframes : extractFrames (st.buffer ++ data) = (f :: fs, rem)) :
    dispatchFrames decode exts requestId (f :: fs) =
      createErrorResponse (requestId.getD JSON.null) ErrorCode.PARSE_ERROR msg
          [("data", JSON.str (String.mk (f.take 100)))]
        :: dispatchFrames decode exts requestId fs
    ∧ onTcpData decode exts st data =
        (createErrorResponse JSON.null ErrorCode.PARSE_ERROR msg
            [("data", JSON.str (String.mk (f.take 100)))]
          :: dispatchFrames decode exts none fs,
         TcpConnState.mk rem) := by
  constructor
  · simp [dispatchFrames, hdec]
  · simp only [onTcpData, if_neg (Nat.not_lt.mpr hlen), hframes]
    simp [dispatchFrames, hdec]

/-- C7 witness: a single malformed frame at the start of a data event on a
fresh connection is answered with id null and the loop continues. -/
theorem c7_parse_error_amended_witness :
    dispatchFrames (fun _ => Except.error "bad") [] (some (JSON.num 5)) [['x']] =
      [createErrorResponse (JSON.num 5) ErrorCode.PARSE_ERROR "bad"
          [("data", JSON.str "x")]]
    ∧ onTcpData (fun _ => Except.error "bad") [] initialConnState ['x', '\n'] =
        ([createErrorResponse JSON.null ErrorCode.PARSE_ERROR "bad"
            [("data", JSON.str "x")]],
         TcpConnState.mk []) := by
  have h := c7_parse_error_amended (fun _ => Except.error "bad") [] (some (JSON.num 5))
    ['x'] [] "bad" initialConnState ['x', '\n'] [] rfl (by decide) rfl
  exact ⟨h.1, h.2⟩

/-- Splitting a list free of the separator yields the single whole segment. -/
theorem splitOnChar_not_mem {c : Char} {l : List Char} (h : c ∉ l) :
    splitOnChar c l = [l] := by
  induction l with
  | nil => rfl
  | cons x xs ih =>
    have hx : ¬(x = c) := fun he => h (he ▸ List.mem_cons_self x xs)
    have hxs : c ∉ xs := fun hm => h (List.mem_cons_of_mem _ hm)
    simp [splitOnChar, hx, ih hxs]

/-- Splitting past the first separator occurrence peels off the prefix. -/
theorem splitOnChar_append {c : Char} {l1 l2 : List Char} (h : c ∉ l1) :
    splitOnChar c (l1 ++ c :: l2) = l1 :: splitOnChar c l2 := by
  induction l1 with
  | nil => simp [splitOnChar]
  | cons x xs ih =>
    have hx : ¬(x = c) := fun he => h (he ▸ List.mem_cons_self x xs)
    have hxs : c ∉ xs := fun hm => h (List.mem_cons_of_mem _ hm)
    simp [splitOnChar, hx, ih hxs]

/-- Character list of a string concatenation. -/
theorem string_data_append (s t : String) : (s ++ t).data = s.data ++ t.data := by
  cases s
  cases t
  rfl

/-- Rebuilding a string from its own characters is the identity. -/
theorem string_mk_data (s : String) : String.mk s.data = s := rfl

/-- The dispatch's split, past a dot following a dot-free prefix. -/
theorem jsSplitDot_append {ns : String} (rest : String) (h : '.' ∉ ns.data) :
    jsSplitDot (ns ++ "." ++ rest) = ns :: jsSplitDot rest := by
  unfold jsSplitDot
  have hdata : (ns ++ "." ++ rest).data = ns.data ++ '.' :: rest.data := by
    rw [string_data_append, string_data_append, List.append_assoc]
    rfl
  rw [hdata, splitOnChar_append h, List.map_cons, string_mk_data]

/-- The dispatch's split of a dot-free string. -/
theorem jsSplitDot_single {s : String} (h : '.' ∉ s.data) :
    jsSplitDot s = [s] := by
  unfold jsSplitDot
  rw [splitOnChar_not_mem h, List.map_cons, List.map_nil, string_mk_data]

/-- C4 amended.  Method resolution splits on every dot and keeps only the
first two segments: the namespace is the text before the first dot and the
method name is the text between the first and second dots — segments after
the second dot are ignored, not looked up.  A method with no dot, or with an
empty first or second segment, is answered with the `INVALID_REQUEST`
(-32600) envelope — not a parse error — and no handler is invoked. -/
theorem c4_method_split_amended (exts : List (String × Extension)) (req : RpcRequest)
    (ns mn extra : String)
    (hns : '.' ∉ ns.data) (hmn : '.' ∉ mn.data) :
    (('.' ∉ req.method.data) → handleRequest exts req =
      (RpcResponse.mk "2.0" req.id none
        (some (ErrorService.invalidRequest
          "Invalid method format. Expected extension.method" [])), false))
    ∧ ((methodSegments req.method).1 = "" ∨ (methodSegments req.method).2 = "" →
        handleRequest exts req =
          (RpcResponse.mk "2.0" req.id none
            (some (ErrorService.invalidRequest
              "Invalid method format. Expected extension.method" [])), false))
    ∧ methodSegments (ns ++ "." ++ mn) = (ns, mn)
    ∧ methodSegments (ns ++ "." ++ mn ++ "." ++ extra) = (ns, mn) := by
  have hempty : (methodSegments req.method).1 = "" ∨ (methodSegments req.method).2 = "" →
      handleRequest exts req =
        (RpcResponse.mk "2.0" req.id none
          (some (ErrorService.invalidRequest
            "Invalid method format. Expected extension.method" [])), false) := by
    intro hcond
    simp only [handleRequest]
    rw [if_pos hcond]
  refine ⟨?_, hempty, ?_, ?_⟩
  · intro hnd
    refine hempty (Or.inr ?_)
    unfold methodSegments
    rw [jsSplitDot_single hnd]
    rfl
  · unfold methodSegments
    rw [jsSplitDot_append mn hns, jsSplitDot_single hmn]
    rfl
  · unfold methodSegments
    have hassoc : ns ++ "." ++ mn ++ "." ++ extra = ns ++ "." ++ (mn ++ "." ++ extra) := by
      cases ns
      cases mn
      cases extra
      simp [String.append_assoc]
    rw [hassoc, jsSplitDot_append (mn ++ "." ++ extra) hns,
      jsSplitDot_append extra hmn]
    rfl

/-- C4 amended witness: a dotless method is rejected with -32600 and no
invocation, and the split keeps only the first two dot segments. -/
theorem c4_method_split_amended_witness :
    handleRequest [] (RpcRequest.mk "2.0" "nodots" none JSON.null) =
      (RpcResponse.mk "2.0" JSON.null none
        (some (ErrorService.invalidRequest
          "Invalid method format. Expected extension.method" [])), false)
    ∧ methodSegments ("echo" ++ "." ++ "ping") = ("echo", "ping")
    ∧ methodSegments ("echo" ++ "." ++ "ping" ++ "." ++ "zzz") = ("echo", "ping") := by
  have h := c4_method_split_amended [] (RpcRequest.mk "2.0" "nodots" none JSON.null)
    "echo" "ping" "zzz" (by decide) (by decide)
  exact ⟨h.1 (by decide), h.2.2.1, h.2.2.2⟩

/-- Dispatching `echo.echo` reduces to the echo handler's outcome wrapped in
the corresponding envelope: the method resolves, settles immediately, and
the race is won by the handler. -/
theorem handleRequest_echo_echo (now : String) (params : JSON) (idv : JSON) :
    handleRequest [("echo", echoExtension now)]
      (RpcRequest.mk "2.0" "echo.echo" (some params) idv) =
    (match echoRun true now params with
     | HandlerOutcome.ok v => (RpcResponse.mk "2.0" idv (some v) none, true)
     | HandlerOutcome.rpcThrow e => (RpcResponse.mk "2.0" idv none (some e), true)
     | HandlerOutcome.jsThrow msg =>
       (RpcResponse.mk "2.0" idv none
         (some (ErrorService.internalError msg
           [("requestId", idv), ("method", JSON.str "echo.echo")])), true)) := rfl

/-- C10.  The `echo.echo` method succeeds exactly when its params value is a
non-null object whose every key is `message` with a string value; the
success payload carries the prefixed input message and the clock's ISO
timestamp; any failure is an `INVALID_PARAMS` (-32602) error, with the
unknown-key rejection listing the offending parameter names in its details;
a thrown error surfaces unchanged as the dispatch's error envelope. -/
theorem c10_echo_params (now : String) (params : JSON) :
    ((∃ v, echoRun true now params = HandlerOutcome.ok v) ↔
      (jsIsNullOrNonObject params = false
        ∧ (jsKeys params).filter (fun k => k ≠ "message") = []
        ∧ ∃ m, jsGetProp params "message" = some (JSON.str m)))
    ∧ (∀ m v, jsGetProp params "message" = some (JSON.str m) →
        echoRun true now params = HandlerOutcome.ok v →
        v = JSON.obj [("message", JSON.str ("📣: " ++ m)), ("timestamp", JSON.str now)])
    ∧ (∀ e, echoRun true now params = HandlerOutcome.rpcThrow e →
        e.code = ErrorCode.INVALID_PARAMS)
    ∧ (∀ flds, params = JSON.obj flds →
        (flds.map Prod.fst).filter (fun k => k ≠ "message") ≠ [] →
        ∃ e, echoRun true now params = HandlerOutcome.rpcThrow e
          ∧ e.code = ErrorCode.INVALID_PARAMS
          ∧ ("unknownParams",
              JSON.arr (((flds.map Prod.fst).filter (fun k => k ≠ "message")).map JSON.str))
              ∈ e.details)
    ∧ (∀ e idv, echoRun true now params = HandlerOutcome.rpcThrow e →
        (handleRequest [("echo", echoExtension now)]
          (RpcRequest.mk "2.0" "echo.echo" (some params) idv)).1.error = some e) := by
  have hdisp : ∀ e idv, echoRun true now params = HandlerOutcome.rpcThrow e →
      (handleRequest [("echo", echoExtension now)]
        (RpcRequest.mk "2.0" "echo.echo" (some params) idv)).1.error = some e := by
    intro e idv he
    rw [handleRequest_echo_echo, he]
  have build : ∀ e0 : RpcError,
      echoRun true now params = HandlerOutcome.rpcThrow e0 →
      e0.code = ErrorCode.INVALID_PARAMS →
      ((¬ ∃ m, jsGetProp params "message" = some (JSON.str m))
        ∨ ¬ ((jsKeys params).filter (fun k => k ≠ "message") = [])) →
      (∀ flds, params = JSON.obj flds →
        (flds.map Prod.fst).filter (fun k => k ≠ "message") ≠ [] →
        ∃ e, echoRun true now params = HandlerOutcome.rpcThrow e
          ∧ e.code = ErrorCode.INVALID_PARAMS
          ∧ ("unknownParams",
              JSON.arr (((flds.map Prod.fst).filter (fun k => k ≠ "message")).map JSON.str))
              ∈ e.details) →
      (((∃ v, echoRun true now params = HandlerOutcome.ok v) ↔
        (jsIsNullOrNonObject params = false
          ∧ (jsKeys params).filter (fun k => k ≠ "message") = []
          ∧ ∃ m, jsGetProp params "message" = some (JSON.str m)))
      ∧ (∀ m v, jsGetProp params "message" = some (JSON.str m) →
          echoRun true now params = HandlerOutcome.ok v →
          v = JSON.obj [("message", JSON.str ("📣: " ++ m)), ("timestamp", JSON.str now)])
      ∧ (∀ e, echoRun true now params = HandlerOutcome.rpcThrow e →
          e.code = ErrorCode.INVALID_PARAMS)
      ∧ (∀ flds, params = JSON.obj flds →
          (flds.map Prod.fst).filter (fun k => k ≠ "message") ≠ [] →
          ∃ e, echoRun true now params = HandlerOutcome.rpcThrow e
            ∧ e.code = ErrorCode.INVALID_PARAMS
            ∧ ("unknownParams",
                JSON.arr (((flds.map Prod.fst).filter (fun k => k ≠ "message")).map JSON.str))
                ∈ e.details)
      ∧ (∀ e idv, echoRun true now params = HandlerOutcome.rpcThrow e →
          (handleRequest [("echo", echoExtension now)]
            (RpcRequest.mk "2.0" "echo.echo" (some params) idv)).1.error = some e)) := by
    intro e0 hrun hc0 hbad hconj4
    refine ⟨?_, ?_, ?_, hconj4, hdisp⟩
    · constructor
      · rintro ⟨v, hv⟩
        rw [hrun] at hv
        exact HandlerOutcome.noConfusion hv
      · rintro ⟨-, h2, h3⟩
        rcases hbad with hb | hb
        · exact absurd h3 hb
        · exact absurd h2 hb
    · intro m v hm hv
      rw [hrun] at hv
      exact HandlerOutcome.noConfusion hv
    · intro e he
      have h := hrun.symm.trans he
      injection h with h2
      rw [← h2]
      exact hc0
  by_cases hobj : jsIsNullOrNonObject params = true
  · have hnomsg : jsGetProp params "message" = none := by
      cases params <;> simp_all [jsIsNullOrNonObject, jsGetProp]
    have hrun : echoRun true now params = HandlerOutcome.rpcThrow
        (ErrorService.invalidParams "Invalid params: must be an object" none
          [("receivedType", JSON.str (jsTypeof params)),
           ("source", JSON.str "echo-extension")]) := by
      simp only [echoRun]
      rw [if_neg (by decide), if_pos hobj]
    exact build _ hrun rfl
      (Or.inl (by rintro ⟨m, hm⟩; rw [hnomsg] at hm; exact Option.noConfusion hm))
      (fun flds hf hne => by rw [hf] at hobj; exact absurd hobj (by simp [jsIsNullOrNonObject]))
  · rw [Bool.not_eq_true] at hobj
    by_cases hunk : 0 < ((jsKeys params).filter (fun k => k ≠ "message")).length
    · have hne0 : ¬ ((jsKeys params).filter (fun k => k ≠ "message") = []) := by
        intro h0
        rw [h0] at hunk
        exact absurd hunk (by simp)
      have hrun : echoRun true now params = HandlerOutcome.rpcThrow
          (ErrorService.invalidParams
            ("Invalid params: unknown parameters " ++
              String.intercalate ", " ((jsKeys params).filter (fun k => k ≠ "message")))
            none
            [("unknownParams",
               JSON.arr (((jsKeys params).filter (fun k => k ≠ "message")).map JSON.str)),
             ("allowedParams", JSON.arr [JSON.str "message"]),
             ("source", JSON.str "echo-extension")]) := by
        simp only [echoRun]
        rw [if_neg (by decide), if_neg (by rw [hobj]; exact Bool.false_ne_true), if_pos hunk]
      exact build _ hrun rfl (Or.inr hne0)
        (fun flds hf hne => by
          subst hf
          exact ⟨_, hrun, rfl, List.mem_cons_self _ _⟩)
    · have hfilt0 : (jsKeys params).filter (fun k => k ≠ "message") = [] :=
        List.length_eq_zero.mp (Nat.eq_zero_of_not_pos hunk)
      have hconj4 : ∀ flds, params = JSON.obj flds →
          (flds.map Prod.fst).filter (fun k => k ≠ "message") ≠ [] →
          ∃ e, echoRun true now params = HandlerOutcome.rpcThrow e
            ∧ e.code = ErrorCode.INVALID_PARAMS
            ∧ ("unknownParams",
                JSON.arr (((flds.map Prod.fst).filter (fun k => k ≠ "message")).map JSON.str))
                ∈ e.details := by
        intro flds hf hne
        subst hf
        exact absurd hfilt0 hne
      obtain hmsg | ⟨v, hmsg⟩ :
          jsGetProp params "message" = none ∨ ∃ v, jsGetProp params "message" = some v := by
        cases h : jsGetProp params "message" with
        | none => exact Or.inl rfl
        | some v => exact Or.inr ⟨v, rfl⟩
      · have hrun : echoRun true now params = HandlerOutcome.rpcThrow
            (ErrorService.invalidParams "Invalid params: message must be a string" none
              [("receivedType", JSON.str (jsDisplayType none)),
               ("source", JSON.str "echo-extension")]) := by
          simp only [echoRun]
          rw [if_neg (by decide), if_neg (by rw [hobj]; exact Bool.false_ne_true),
            if_neg hunk, hmsg]
        exact build _ hrun rfl
          (Or.inl (by rintro ⟨m, hm⟩; rw [hmsg] at hm; exact Option.noConfusion hm))
          hconj4
      · cases v with
        | str m =>
          have hrun : echoRun true now params = HandlerOutcome.ok
              (JSON.obj [("message", JSON.str ("📣: " ++ (if m = "" then "" else m))),
                ("timestamp", JSON.str now)]) := by
            simp only [echoRun]
            rw [if_neg (by decide), if_neg (by rw [hobj]; exact Bool.false_ne_true),
              if_neg hunk, hmsg]
          refine ⟨?_, ?_, ?_, hconj4, hdisp⟩
          · exact ⟨fun _ => ⟨hobj, hfilt0, m, hmsg⟩, fun _ => ⟨_, hrun⟩⟩
          · intro m2 v2 hm2 hv2
            have hmm : m = m2 := by
              have h := hmsg.symm.trans hm2
              injection h with h2
              injection h2
            rw [hrun] at hv2
            injection hv2 with h3
            rw [← h3, ← hmm]
            by_cases hm0 : m = "" <;> simp [hm0]
          · intro e he
            rw [hrun] at he
            exact HandlerOutcome.noConfusion he
        | null =>
          have hrun : echoRun true now params = HandlerOutcome.rpcThrow
              (ErrorService.invalidParams "Invalid params: message must be a string" none
                [("receivedType", JSON.str (jsDisplayType (some (JSON.null)))),
                 ("source", JSON.str "echo-extension")]) := by
            simp only [echoRun]
            rw [if_neg (by decide), if_neg (by rw [hobj]; exact Bool.false_ne_true),
              if_neg hunk, hmsg]
          exact build _ hrun rfl
            (Or.inl (by
              rintro ⟨m, hm⟩
              have h := hmsg.symm.trans hm
              injection h with h2
              exact JSON.noConfusion h2))
            hconj4
        | bool b =>
          have hrun : echoRun true now params = HandlerOutcome.rpcThrow
              (ErrorService.invalidParams "Invalid params: message must be a string" none
                [("receivedType", JSON.str (jsDisplayType (some (JSON.bool b)))),
                 ("source", JSON.str "echo-extension")]) := by
            simp only [echoRun]
            rw [if_neg (by decide), if_neg (by rw [hobj]; exact Bool.false_ne_true),
              if_neg hunk, hmsg]
          exact build _ hrun rfl
            (Or.inl (by
              rintro ⟨m, hm⟩
              have h := hmsg.symm.trans hm
              injection h with h2
              exact JSON.noConfusion h2))
            hconj4
        | num n =>
          have hrun : echoRun true now params = HandlerOutcome.rpcThrow
              (ErrorService.invalidParams "Invalid params: message must be a string" none
                [("receivedType", JSON.str (jsDisplayType (some (JSON.num n)))),
                 ("source", JSON.str "echo-extension")]) := by
            simp only [echoRun]
            rw [if_neg (by decide), if_neg (by rw [hobj]; exact Bool.false_ne_true),
              if_neg hunk, hmsg]
          exact build _ hrun rfl
            (Or.inl (by
              rintro ⟨m, hm⟩
              have h := hmsg.symm.trans hm
              injection h with h2
              exact JSON.noConfusion h2))
            hconj4
        | arr elems =>
          have hrun : echoRun true now params = HandlerOutcome.rpcThrow
              (ErrorService.invalidParams "Invalid params: message must be a string" none
                [("receivedType", JSON.str (jsDisplayType (some (JSON.arr elems)))),
                 ("source", JSON.str "echo-extension")]) := by
            simp only [echoRun]
            rw [if_neg (by decide), if_neg (by rw [hobj]; exact Bool.false_ne_true),
              if_neg hunk, hmsg]
          exact build _ hrun rfl
            (Or.inl (by
              rintro ⟨m, hm⟩
              have h := hmsg.symm.trans hm
              injection h with h2
              exact JSON.noConfusion h2))
            hconj4
        | obj fields =>
          have hrun : echoRun true now params = HandlerOutcome.rpcThrow
              (ErrorService.invalidParams "Invalid params: message must be a string" none
                [("receivedType", JSON.str (jsDisplayType (some (JSON.obj fields)))),
                 ("source", JSON.str "echo-extension")]) := by
            simp only [echoRun]
            rw [if_neg (by decide), if_neg (by rw [hobj]; exact Bool.false_ne_true),
              if_neg hunk, hmsg]
          exact build _ hrun rfl
            (Or.inl (by
              rintro ⟨m, hm⟩
              have h := hmsg.symm.trans hm
              injection h with h2
              exact JSON.noConfusion h2))
            hconj4

/-- C10 witness: a well-formed echo call succeeds, and a call with the
extra key x fails with -32602 listing x among the unknown parameters. -/
theorem c10_echo_params_witness :
    (∃ v, echoRun true "T" (JSON.obj [("message", JSON.str "hi")]) = HandlerOutcome.ok v)
    ∧ (∃ e, echoRun true "T" (JSON.obj [("message", JSON.str "hi"), ("x", JSON.null)]) =
          HandlerOutcome.rpcThrow e
        ∧ e.code = ErrorCode.INVALID_PARAMS
        ∧ ("unknownParams", JSON.arr [JSON.str "x"]) ∈ e.details) := by
  constructor
  · exact (c10_echo_params "T" (JSON.obj [("message", JSON.str "hi")])).1.mpr
      ⟨rfl, rfl, "hi", rfl⟩
  · exact (c10_echo_params "T"
      (JSON.obj [("message", JSON.str "hi"), ("x", JSON.null)])).2.2.2.1
      [("message", JSON.str "hi"), ("x", JSON.null)] rfl (by decide)

end RpcAgent
